import Mathlib

/-!
Verification of the Temporal Event Timeline Engine.

The engine lives in two source files:
* `RightGlassDrawer.tsx` — identity resolution (`toPersonId`), the event
  normalizer and sorter (`buildEventsFromAnalysis`), and the selection filter
  (`filteredEvents`);
* `VerticalTimeLine.tsx` — the layout engine (`secToY`, `safeDuration`,
  `heightPx`, `normalizedEvents`, `labels`, `minorTicks`).

JavaScript numbers are modelled as `ℚ` (all the arithmetic the engine performs
on them is exact on rationals); values produced by `Math.floor` are modelled as
`ℤ`.  Fields that can be `undefined`/`null` at runtime — everything the code
guards with `?? `, `||` or `typeof` checks — are modelled as `Option`.
`Array.prototype.sort` (guaranteed stable by the ECMAScript spec) is modelled
by `List.insertionSort`, which is stable with the same tie-breaking direction:
an element is inserted before every later element it compares `≤` to.
-/

namespace ElderAI

/-- JS `x || d` for an optional string: `undefined`, `null` and `""` are all
falsy, so they fall back to the default. -/
def jsOrDefault (v : Option String) (d : String) : String :=
  match v with
  | none => d
  | some s => if s = "" then d else s

/-- Rendering of a possibly-`undefined` string inside a template literal:
JS prints the text `undefined` for a missing value. -/
def undefStr : Option String → String
  | none => "undefined"
  | some s => s

/-- Decimal digits of a natural number, least significant digit last; models
the JS number-to-string conversion `${n}` for a nonnegative integer. -/
def natStr (n : ℕ) : List Char :=
  if _h : n < 10 then [Nat.digitChar n]
  else natStr (n / 10) ++ [Nat.digitChar (n % 10)]
decreasing_by exact Nat.div_lt_self (by omega) (by omega)

/-- Decimal rendering of an integer (`${t}` in JS for an integral value). -/
def intStr (t : ℤ) : List Char :=
  if t < 0 then '-' :: natStr t.natAbs else natStr t.toNat

/-- JS `String.prototype.trim`: drop whitespace from both ends. -/
def jsTrim (s : String) : String :=
  String.mk (((s.data.dropWhile Char.isWhitespace).reverse.dropWhile
    Char.isWhitespace).reverse)

/-! ### Data model (`twelvelabs.ts`, `people.ts`)

`TwelveLabsWarning`, `TwelveLabsTimelinePerson`, `TwelveLabsTimelineItem`,
`TwelveLabsAnalysis` and `PersonAppeared` (the roster entries, with the two
fields the engine reads). -/

structure Person where
  id : String
  name : String
deriving DecidableEq, Repr

structure TLPerson where
  name : Option String
  action : Option String
  location_hint : Option String
  confidence : Option ℚ
deriving DecidableEq, Repr

structure TLItem where
  t : Option ℚ
  people : List TLPerson
deriving DecidableEq, Repr

structure TLWarning where
  type : String
  severity : Option String
  start_sec : Option ℚ
  end_sec : Option ℚ
  person : Option String
  evidence : Option String
  confidence : Option ℚ
deriving DecidableEq, Repr

structure VideoMeta where
  duration_sec : Option ℚ
deriving DecidableEq, Repr

structure Analysis where
  video : Option VideoMeta
  warnings : List TLWarning
  timeline : List TLItem
deriving DecidableEq, Repr

/-- `TimelineEvent` of `VerticalTimeLine.tsx`, extended with the `variant`,
`severity` and `confidence` fields the drawer attaches (`UITimelineEvent`). -/
structure Event where
  id : String
  personId : String
  atSec : ℤ
  label : String
  variant : String
  severity : Option String := none
  confidence : Option ℚ := none
deriving DecidableEq, Repr

namespace RGD

/-- `RightGlassDrawer.tsx` line 19: `clamp(v, lo, hi)`; applied by the
normalizer to integers produced by `Math.floor`. -/
def clamp (v lo hi : ℤ) : ℤ := max lo (min hi v)

/-- `RightGlassDrawer.tsx` lines 21–25. -/
def severityRank (s : Option String) : ℤ :=
  if s = some "high" then 3 else if s = some "medium" then 2 else 1

/-- Lines 90–93.  `nameToId` is a `Map` filled by `set(trim(p.name), p.id)`;
`Map.set` overwrites, so a lookup returns the id of the LAST roster entry whose
trimmed name equals the trimmed query, hence `find?` on the reversed roster. -/
def toPersonId (people : List Person) (name : String) : String :=
  match (people.reverse.find? (fun p => jsTrim p.name == jsTrim name)) with
  | some p => p.id
  | none => "__unknown__"

/-- Line 99: `a.video?.duration_sec ?? null`. -/
def durFromJson (a : Analysis) : Option ℚ :=
  a.video.bind (fun v => v.duration_sec)

/-- `Math.max(...)` over a nonempty argument list (the empty case is never
reached: the caller checks `a.timeline?.length` first). -/
def listMax : List ℚ → ℚ
  | [] => 0
  | x :: xs => xs.foldl max x

/-- Lines 100–101: `a.timeline?.length ? Math.max(...a.timeline.map(x => x.t)) + 1 : 0`.
`none` models the `NaN` produced when some sample is missing `t`. -/
def durFromTimeline (tl : List TLItem) : Option ℚ :=
  if tl.isEmpty then some 0
  else if tl.all (fun it => it.t.isSome) then
    some (listMax (tl.filterMap (fun it => it.t)) + 1)
  else none

/-- Line 102: `durFromJson ?? durFromTimeline`. -/
def duration (a : Analysis) : Option ℚ :=
  match durFromJson a with
  | some q => some q
  | none => durFromTimeline a.timeline

/-- `duration || 0`: both `0` and `NaN` are falsy. -/
def durOr0 (d : Option ℚ) : ℚ :=
  match d with
  | none => 0
  | some q => q

/-- Line 103: `Math.max(0, Math.floor(duration || 0))`. -/
def safeDuration (a : Analysis) : ℤ := max 0 ⌊durOr0 (duration a)⌋

/-- Id of a warning event, line 111: `warn-${i}-${personName}-${t}`. -/
def warnId (i : ℕ) (personName : String) (t : ℤ) : String :=
  "warn-" ++ String.mk (natStr i) ++ "-" ++ personName ++ "-" ++ String.mk (intStr t)

/-- Id of an observation event, line 134: `act-${t}-${nm}`. -/
def actId (t : ℤ) (nm : String) : String :=
  "act-" ++ String.mk (intStr t) ++ "-" ++ nm

/-- One warning event, lines 107–118 of `RightGlassDrawer.tsx`. -/
def mkWarnEvent (people : List Person) (sd : ℤ) (i : ℕ) (w : TLWarning) : Event :=
  let t := clamp ⌊w.start_sec.getD 0⌋ 0 (max 1 sd)
  let personName := jsOrDefault w.person "Unknown"
  { id := warnId i personName t
    personId := toPersonId people personName
    atSec := t
    label := "⚠ " ++ personName ++ ": " ++ w.type ++ " (" ++ undefStr w.severity ++ ")"
    variant := "warn"
    severity := w.severity
    confidence := none }

/-- One observation event, lines 130–141 (`t` is the already-floored sample
time; `confidence` is copied only when `typeof pp.confidence === "number"`). -/
def mkObsEvent (people : List Person) (sd : ℤ) (t : ℤ) (pp : TLPerson) : Event :=
  let nm := jsOrDefault pp.name "Unknown"
  let action := jsOrDefault pp.action "unknown"
  { id := actId t nm
    personId := toPersonId people nm
    atSec := clamp t 0 (max 1 sd)
    label := nm ++ ": " ++ action
    variant := "info"
    severity := none
    confidence := pp.confidence }

/-- `warnings.forEach((w, i) => out.push(...))`, indices counted from `i`. -/
def warnEventsAux (people : List Person) (sd : ℤ) : ℕ → List TLWarning → List Event
  | _, [] => []
  | i, w :: ws => mkWarnEvent people sd i w :: warnEventsAux people sd (i + 1) ws

def warnEvents (people : List Person) (sd : ℤ) (ws : List TLWarning) : List Event :=
  warnEventsAux people sd 0 ws

/-- Lines 120–142: downsampling loop, `STEP = 10`; a sample is materialized
only when its floored time is an exact multiple of 10. -/
def obsEvents (people : List Person) (sd : ℤ) (tl : List TLItem) : List Event :=
  tl.flatMap (fun item =>
    if ⌊item.t.getD 0⌋ % 10 ≠ 0 then []
    else item.people.map (fun pp => mkObsEvent people sd ⌊item.t.getD 0⌋ pp))

/-- The unsorted event list: warnings are appended before observation events. -/
def preEvents (people : List Person) (a : Analysis) : List Event :=
  warnEvents people (safeDuration a) a.warnings ++
    obsEvents people (safeDuration a) a.timeline

/-- The comparator of lines 145–151, returning a number whose sign orders the
pair. -/
def evCmp (a1 a2 : Event) : ℤ :=
  if a1.atSec ≠ a2.atSec then a1.atSec - a2.atSec
  else
    let w1 : ℤ := if a1.variant = "warn" then 1 else 0
    let w2 : ℤ := if a2.variant = "warn" then 1 else 0
    if w1 ≠ w2 then w2 - w1
    else severityRank a2.severity - severityRank a1.severity

/-- The ordering induced by the comparator: `a` may precede `b` iff
`evCmp a b ≤ 0`. -/
def evR (a1 a2 : Event) : Prop := evCmp a1 a2 ≤ 0

instance : DecidableRel evR := fun a b => Int.decLe (evCmp a b) 0

/-- Lines 95–154: the normalizer.  Returns `{ safeDuration, out }` with `out`
stably sorted by the comparator. -/
def buildEventsFromAnalysis (people : List Person) (a : Analysis) : ℤ × List Event :=
  (safeDuration a, List.insertionSort evR (preEvents people a))

/-- Lines 202–205: the selection filter.  `!selectedPersonId` is true both for
`null` and for the empty string. -/
def filteredEvents (events : List Event) (selectedPersonId : Option String) : List Event :=
  match selectedPersonId with
  | none => events
  | some pid => if pid = "" then events else events.filter (fun e => e.personId == pid)

/-- `1` iff the event renders as a warning (`variant === "warn"`). -/
def warnBit (e : Event) : ℤ := if e.variant = "warn" then 1 else 0

/-- The full comparator key: two events tie under the comparator exactly when
their keys agree. -/
def evKey (e : Event) : ℤ × ℤ × ℤ := (e.atSec, warnBit e, severityRank e.severity)

/-- The (floored time, defaulted display name) pairs of all person entries in
retained (downsample-surviving) observation samples, in emission order. -/
def retainedPairs (tl : List TLItem) : List (ℤ × String) :=
  tl.flatMap (fun item =>
    if ⌊item.t.getD 0⌋ % 10 ≠ 0 then []
    else item.people.map (fun pp => (⌊item.t.getD 0⌋, jsOrDefault pp.name "Unknown")))

end RGD

/-- The top-level analysis value as the untyped JavaScript value the normalizer
can actually receive.  `jnull` stands for both `null` and `undefined`; `jarr`
for an array; `jobj` for an object of the expected shape. -/
inductive JsPayload where
  | jnull : JsPayload
  | jbool : Bool → JsPayload
  | jnum : ℚ → JsPayload
  | jstr : String → JsPayload
  | jarr : JsPayload
  | jobj : Analysis → JsPayload
deriving DecidableEq

namespace RGD

/-- `buildEventsFromAnalysis` run on an untyped top-level payload, following
JS property-access semantics: reading `a.video` on `null`/`undefined` throws a
`TypeError`; on any other non-object value every property read yields
`undefined`, so `durFromJson` is `null`, both `Array.isArray` guards fail,
`duration` is `0` and the event list is empty.  There is no rejection path and
no `MalformedPayload` condition anywhere in the function. -/
def buildEventsFromAnalysisJs (people : List Person) :
    JsPayload → Except String (ℤ × List Event)
  | .jnull => .error "TypeError"
  | .jobj a => .ok (buildEventsFromAnalysis people a)
  | _ => .ok (0, [])

end RGD

/-! ### `VerticalTimeLine.tsx` — the layout engine -/

namespace VT

/-- `TimelineEvent` exactly as declared in `VerticalTimeLine.tsx`: arbitrary
(possibly non-integer, out-of-range) `atSec`. -/
structure TimelineEvent where
  id : String
  personId : String
  atSec : ℚ
  label : Option String
deriving DecidableEq, Repr

/-- Line 86 of the timeline file. -/
def clamp (v lo hi : ℚ) : ℚ := max lo (min hi v)

/-- Lines 95–99: the time-to-pixel projection. -/
def secToY (sec duration padTop padBottom height : ℚ) : ℚ :=
  let usable := max 1 (height - padTop - padBottom)
  let t := clamp sec 0 duration / max 1 duration
  padTop + t * usable

/-- Line 113: `Math.max(1, Math.floor(durationSec))`. -/
def safeDuration (durationSec : ℚ) : ℤ := max 1 ⌊durationSec⌋

/-- Line 114: `Math.max(minHeightPx, Math.round((safeDuration / 60) * pxPerMinute))`
(`Math.round` rounds half-up, matching Mathlib's `round`). -/
def heightPx (durationSec minHeightPx pxPerMinute : ℚ) : ℚ :=
  max minHeightPx ((round (((safeDuration durationSec : ℤ) : ℚ) / 60 * pxPerMinute) : ℤ) : ℚ)

/-- The ordering induced by the comparator `(a, b) => a.atSec - b.atSec`. -/
def vtLe (a b : TimelineEvent) : Prop := a.atSec ≤ b.atSec

instance : DecidableRel vtLe := fun a b => inferInstanceAs (Decidable (a.atSec ≤ b.atSec))

instance : IsTotal TimelineEvent vtLe := ⟨fun a b => le_total a.atSec b.atSec⟩

instance : IsTrans TimelineEvent vtLe := ⟨fun _ _ _ h1 h2 => le_trans h1 h2⟩

/-- Lines 116–125: every incoming event is re-floored and re-clamped into
`[0, safeDuration]`, then the list is stably re-sorted by `atSec`
(`(a, b) => a.atSec - b.atSec`). -/
def normalizedEvents (events : List TimelineEvent) (safeD : ℤ) : List TimelineEvent :=
  List.insertionSort vtLe
    (events.map (fun e => { e with atSec := ((RGD.clamp ⌊e.atSec⌋ 0 safeD : ℤ) : ℚ) }))

/-- Lines 127–133: label times `0, step, 2·step, …` up to `safeDuration`, with
`safeDuration` itself appended when it is not already the last entry. -/
def labels (labelEverySec : ℚ) (safeD : ℤ) : List ℤ :=
  let step := max 1 ⌊labelEverySec⌋
  let base := (List.range (safeD.toNat / step.toNat + 1)).map (fun k => (k : ℤ) * step)
  if base.getLast? = some safeD then base else base ++ [safeD]

/-- Lines 135–141: minor tick times; `!minorTickEverySec` is true for an
absent spacing and for `0`. -/
def minorTicks (minorTickEverySec : Option ℚ) (safeD : ℤ) : List ℤ :=
  match minorTickEverySec with
  | none => []
  | some q =>
    if q = 0 then []
    else
      let step := max 1 ⌊q⌋
      (List.range (safeD.toNat / step.toNat + 1)).map (fun k => (k : ℤ) * step)

/-- Lines 158–166: each label is positioned at `secToY` of its time. -/
def labelPositions (labelEverySec : ℚ) (safeD : ℤ) (pt pb h : ℚ) : List (ℤ × ℚ) :=
  (labels labelEverySec safeD).map (fun t => (t, secToY (t : ℚ) (safeD : ℚ) pt pb h))

/-- Lines 169–173: minor ticks positioned at `secToY`, skipping times that are
multiples of the label step. -/
def minorTickPositions (minorTickEverySec : Option ℚ) (labelEverySec : ℚ)
    (safeD : ℤ) (pt pb h : ℚ) : List (ℤ × ℚ) :=
  ((minorTicks minorTickEverySec safeD).filter
      (fun t => !(t % max 1 ⌊labelEverySec⌋ == 0))).map
    (fun t => (t, secToY (t : ℚ) (safeD : ℚ) pt pb h))

/-- Lines 176–194: each normalized event positioned at `secToY` of its
(already clamped) `atSec`. -/
def eventPositions (events : List TimelineEvent) (safeD : ℤ) (pt pb h : ℚ) :
    List (TimelineEvent × ℚ) :=
  (normalizedEvents events safeD).map (fun e => (e, secToY e.atSec (safeD : ℚ) pt pb h))

/-- Modelled from the spec (§4.4): the projection formula exactly as the spec
words it — `pixelOffset(t) = padTop + (clamp(t, 0, safeDuration) / safeDuration)
* (heightPx - padTop - padBottom)` — for comparison with `secToY`. -/
def specPixelOffset (t safeD padTop padBottom height : ℚ) : ℚ :=
  padTop + (clamp t 0 safeD / safeD) * (height - padTop - padBottom)

end VT

/-! ### Concrete inputs used by counterexamples and witnesses -/

/-- A warning with a missing person name. -/
def warnStart5 : TLWarning :=
  { type := "wander", severity := some "low", start_sec := some 5, end_sec := none,
    person := none, evidence := none, confidence := none }

/-- A warning with every optional field missing. -/
def warnBare : TLWarning :=
  { type := "incident", severity := none, start_sec := none, end_sec := none,
    person := none, evidence := none, confidence := none }

/-- Scenario A's warning: `start_sec = 45`, severity `high`, person "Jane". -/
def warnJane45 : TLWarning :=
  { type := "fall", severity := some "high", start_sec := some 45, end_sec := some 50,
    person := some "Jane", evidence := some "clip", confidence := some 1 }

def ppWalkA : TLPerson :=
  { name := some "A", action := some "walk", location_hint := none, confidence := some 1 }

def ppSitB : TLPerson :=
  { name := some "B", action := some "sit", location_hint := none, confidence := none }

/-- A person entry with every optional field missing. -/
def ppBare : TLPerson :=
  { name := none, action := none, location_hint := none, confidence := none }

/-- Explicit duration 0 with one warning: the warning clamps to `atSec = 1`. -/
def cexDurZero : Analysis :=
  { video := some { duration_sec := some 0 }, warnings := [warnStart5], timeline := [] }

/-- Two listed people with the same display name in one retained sample. -/
def cexDupNames : Analysis :=
  { video := some { duration_sec := some 60 }, warnings := [],
    timeline := [{ t := some 10, people := [ppWalkA, ppWalkA] }] }

/-- Distinct (time, name) pairs: warnings plus samples at `t = 10` and `t = 15`. -/
def scenDistinct : Analysis :=
  { video := some { duration_sec := some 60 }, warnings := [warnStart5, warnJane45],
    timeline := [{ t := some 10, people := [ppWalkA, ppSitB] },
                 { t := some 15, people := [ppWalkA] }] }

/-- Scenario C: samples at `t = 15` (dropped) and `t = 20` (kept). -/
def scenC5 : Analysis :=
  { video := some { duration_sec := some 120 }, warnings := [],
    timeline := [{ t := some 15, people := [ppWalkA] },
                 { t := some 20, people := [ppSitB] }] }

/-- Scenario B: empty warnings, empty timeline, no explicit duration. -/
def scenEmpty : Analysis :=
  { video := some { duration_sec := none }, warnings := [], timeline := [] }

/-- Scenario A: duration 120, one warning at 45 for "Jane", one observation
sample at `t = 50`. -/
def scenJane : Analysis :=
  { video := some { duration_sec := some 120 }, warnings := [warnJane45],
    timeline := [{ t := some 50, people := [ppWalkA] }] }

/-- A roster entry whose stored display name carries a trailing space. -/
def rosterTrailing : List Person := [{ id := "1", name := "jane " }]

/-- Scenario D's roster: exact name "jane". -/
def rosterJane : List Person := [{ id := "7", name := "jane" }]

def evX : Event := { id := "e1", personId := "x", atSec := 3, label := "x", variant := "info" }

def evY : Event := { id := "e2", personId := "y", atSec := 4, label := "y", variant := "info" }

/-- A layout event whose raw time is far beyond the timeline. -/
def vtFar : VT.TimelineEvent := { id := "v1", personId := "p", atSec := 200, label := none }

/-- A layout event at one second. -/
def vtOne : VT.TimelineEvent := { id := "v2", personId := "q", atSec := 1, label := none }

/-! ### Ordering infrastructure -/

namespace RGD

instance : IsTotal Event evR :=
  ⟨fun a b => by
    unfold evR evCmp
    by_cases h : a.atSec = b.atSec <;> simp [h] <;> omega⟩

instance : IsTrans Event evR :=
  ⟨fun a b c hab hbc => by
    unfold evR evCmp at hab hbc ⊢
    by_cases h1 : a.atSec = b.atSec <;> by_cases h2 : b.atSec = c.atSec <;>
      simp [h1, h2] at hab hbc ⊢ <;> omega⟩

theorem evR_iff (a b : Event) : evR a b ↔
    (a.atSec < b.atSec ∨ (a.atSec = b.atSec ∧ (warnBit b < warnBit a ∨
      (warnBit a = warnBit b ∧ severityRank b.severity ≤ severityRank a.severity)))) := by
  unfold evR evCmp warnBit
  by_cases h : a.atSec = b.atSec <;> simp [h] <;> omega

end RGD

/-- Stability of the sort model: a stable sort leaves the relative order of
any class of pairwise-tied elements untouched, i.e. filtering the sorted list
by a predicate that only selects mutually tied elements gives the same list as
filtering the input. -/
theorem filter_insertionSort_eq {α : Type} (r : α → α → Prop) [DecidableRel r]
    (p : α → Bool) (hp : ∀ a b, p a = true → p b = true → r a b) (l : List α) :
    (List.insertionSort r l).filter p = l.filter p := by
  have hc : (l.filter p).Pairwise r := by
    refine List.pairwise_of_forall_mem_list ?_
    intro a ha b hb
    exact hp a b (List.of_mem_filter ha) (List.of_mem_filter hb)
  have h1 : List.Sublist (l.filter p) (List.insertionSort r l) :=
    List.sublist_insertionSort hc (List.filter_sublist l)
  have h2 : List.Sublist (l.filter p) ((List.insertionSort r l).filter p) := by
    have h3 := h1.filter p
    simp only [List.filter_filter, Bool.and_self] at h3
    exact h3
  have len : ((List.insertionSort r l).filter p).length = (l.filter p).length :=
    ((List.perm_insertionSort r l).filter p).length_eq
  exact (h2.eq_of_length len.symm).symm

/-! ### Decimal strings and id uniqueness -/

theorem natStr_small {n : ℕ} (h : n < 10) : natStr n = [Nat.digitChar n] := by
  rw [natStr, dif_pos h]

theorem natStr_large {n : ℕ} (h : ¬ n < 10) :
    natStr n = natStr (n / 10) ++ [Nat.digitChar (n % 10)] := by
  rw [natStr, dif_neg h]

theorem natStr_ne_nil (n : ℕ) : natStr n ≠ [] := by
  rw [natStr]; split <;> simp

theorem mem_natStr (n : ℕ) : ∀ c ∈ natStr n, ∃ d, d < 10 ∧ c = Nat.digitChar d := by
  induction n using Nat.strong_induction_on with
  | _ n ih =>
    intro c h
    by_cases hn : n < 10
    · rw [natStr_small hn] at h
      simp only [List.mem_singleton] at h
      exact ⟨n, hn, h⟩
    · rw [natStr_large hn] at h
      rcases List.mem_append.mp h with h1 | h2
      · exact ih (n / 10) (Nat.div_lt_self (by omega) (by omega)) c h1
      · simp only [List.mem_singleton] at h2
        exact ⟨n % 10, Nat.mod_lt _ (by omega), h2⟩

theorem dash_not_mem_natStr (n : ℕ) : '-' ∉ natStr n := by
  intro h
  obtain ⟨d, hd, he⟩ := mem_natStr n '-' h
  have hall : ∀ d, d < 10 → Nat.digitChar d ≠ '-' := by decide
  exact hall d hd he.symm

theorem digitChar_inj : ∀ a, a < 10 → ∀ b, b < 10 → Nat.digitChar a = Nat.digitChar b → a = b := by
  decide

theorem natStr_inj (m : ℕ) : ∀ n : ℕ, natStr m = natStr n → m = n := by
  induction m using Nat.strong_induction_on with
  | _ m ih =>
    intro n h
    by_cases hm : m < 10 <;> by_cases hn : n < 10
    · rw [natStr_small hm, natStr_small hn] at h
      simp only [List.cons.injEq, and_true] at h
      exact digitChar_inj m hm n hn h
    · rw [natStr_small hm, natStr_large hn] at h
      have hl := congrArg List.length h
      simp only [List.length_singleton, List.length_append] at hl
      have : natStr (n / 10) = [] := by
        cases hq : natStr (n / 10) with
        | nil => rfl
        | cons c cs => rw [hq] at hl; simp at hl
      exact absurd this (natStr_ne_nil _)
    · rw [natStr_large hm, natStr_small hn] at h
      have hl := congrArg List.length h
      simp only [List.length_singleton, List.length_append] at hl
      have : natStr (m / 10) = [] := by
        cases hq : natStr (m / 10) with
        | nil => rfl
        | cons c cs => rw [hq] at hl; simp at hl
      exact absurd this (natStr_ne_nil _)
    · rw [natStr_large hm, natStr_large hn] at h
      obtain ⟨h1, h2⟩ := List.append_inj' h (by simp)
      have hd : m / 10 = n / 10 := ih (m / 10) (Nat.div_lt_self (by omega) (by omega)) _ h1
      simp only [List.cons.injEq, and_true] at h2
      have hr : m % 10 = n % 10 :=
        digitChar_inj _ (Nat.mod_lt _ (by omega)) _ (Nat.mod_lt _ (by omega)) h2
      omega

/-- Splitting a character list at the first `'-'` after a dash-free prefix is
unambiguous. -/
theorem append_dash_inj : ∀ (ds1 ds2 r1 r2 : List Char), '-' ∉ ds1 → '-' ∉ ds2 →
    ds1 ++ '-' :: r1 = ds2 ++ '-' :: r2 → ds1 = ds2 ∧ r1 = r2 := by
  intro ds1
  induction ds1 with
  | nil =>
    intro ds2 r1 r2 _ hd2 h
    cases ds2 with
    | nil => simpa using h
    | cons c t =>
      simp only [List.nil_append, List.cons_append, List.cons.injEq] at h
      exact absurd (h.1 ▸ List.mem_cons_self c t) hd2
  | cons c t ih =>
    intro ds2 r1 r2 hd1 hd2 h
    cases ds2 with
    | nil =>
      simp only [List.cons_append, List.nil_append, List.cons.injEq] at h
      exact absurd (h.1 ▸ List.mem_cons_self c t) hd1
    | cons c2 t2 =>
      simp only [List.cons_append, List.cons.injEq] at h
      obtain ⟨he, ht⟩ := h
      obtain ⟨h1, h2⟩ := ih t2 r1 r2 (fun hm => hd1 (List.mem_cons_of_mem c hm))
        (fun hm => hd2 (List.mem_cons_of_mem c2 hm)) ht
      exact ⟨by rw [he, h1], h2⟩

theorem intStr_dash_inj (t1 t2 : ℤ) (r1 r2 : List Char)
    (h : intStr t1 ++ '-' :: r1 = intStr t2 ++ '-' :: r2) : t1 = t2 ∧ r1 = r2 := by
  unfold intStr at h
  split at h <;> split at h
  · rename_i ht1 ht2
    simp only [List.cons_append, List.cons.injEq, true_and] at h
    obtain ⟨h1, h2⟩ := append_dash_inj _ _ _ _ (dash_not_mem_natStr _) (dash_not_mem_natStr _) h
    have ha := natStr_inj _ _ h1
    exact ⟨by omega, h2⟩
  · rename_i ht1 ht2
    obtain ⟨c, cs, hc⟩ := List.exists_cons_of_ne_nil (natStr_ne_nil t2.toNat)
    rw [hc] at h
    simp only [List.cons_append, List.cons.injEq] at h
    exact absurd (h.1 ▸ (hc ▸ List.mem_cons_self c cs)) (dash_not_mem_natStr t2.toNat)
  · rename_i ht1 ht2
    obtain ⟨c, cs, hc⟩ := List.exists_cons_of_ne_nil (natStr_ne_nil t1.toNat)
    rw [hc] at h
    simp only [List.cons_append, List.cons.injEq] at h
    exact absurd (h.1.symm ▸ (hc ▸ List.mem_cons_self c cs)) (dash_not_mem_natStr t1.toNat)
  · rename_i ht1 ht2
    obtain ⟨h1, h2⟩ := append_dash_inj _ _ _ _ (dash_not_mem_natStr _) (dash_not_mem_natStr _) h
    have ha := natStr_inj _ _ h1
    exact ⟨by omega, h2⟩

/-- The prefix of `intStr` consisting of non-dash characters is nonempty ...
every `intStr` either starts with a digit or with a single leading dash
followed by digits; in particular `intStr` is never empty. -/
theorem intStr_ne_nil (t : ℤ) : intStr t ≠ [] := by
  unfold intStr
  split
  · simp
  · exact natStr_ne_nil _

namespace RGD

theorem warnId_data (i : ℕ) (n : String) (t : ℤ) :
    (warnId i n t).data =
      'w' :: 'a' :: 'r' :: 'n' :: '-' :: (natStr i ++ '-' :: (n.data ++ '-' :: intStr t)) := by
  show (("warn-" ++ String.mk (natStr i) ++ "-" ++ n ++ "-" ++ String.mk (intStr t)).data) = _
  simp [String.data_append]

theorem actId_data (t : ℤ) (n : String) :
    (actId t n).data = 'a' :: 'c' :: 't' :: '-' :: (intStr t ++ '-' :: n.data) := by
  show (("act-" ++ String.mk (intStr t) ++ "-" ++ n).data) = _
  simp [String.data_append]

/-- Two warning-event ids built from distinct `forEach` indices are distinct,
whatever the person names and times are. -/
theorem warnId_inj_index (i j : ℕ) (n1 n2 : String) (t1 t2 : ℤ)
    (h : warnId i n1 t1 = warnId j n2 t2) : i = j := by
  have hd := congrArg String.data h
  rw [warnId_data, warnId_data] at hd
  simp only [List.cons.injEq, true_and] at hd
  exact natStr_inj i j (append_dash_inj _ _ _ _ (dash_not_mem_natStr i)
    (dash_not_mem_natStr j) hd).1

/-- An observation-event id determines the (floored sample time, display name)
pair. -/
theorem actId_inj (t1 t2 : ℤ) (n1 n2 : String) (h : actId t1 n1 = actId t2 n2) :
    t1 = t2 ∧ n1 = n2 := by
  have hd := congrArg String.data h
  rw [actId_data, actId_data] at hd
  simp only [List.cons.injEq, true_and] at hd
  obtain ⟨h1, h2⟩ := intStr_dash_inj _ _ _ _ hd
  exact ⟨h1, String.ext h2⟩

/-- Warning ids and observation ids never coincide. -/
theorem warnId_ne_actId (i : ℕ) (n1 : String) (t1 t2 : ℤ) (n2 : String) :
    warnId i n1 t1 ≠ actId t2 n2 := by
  intro h
  have hd := congrArg String.data h
  rw [warnId_data, actId_data] at hd
  exact absurd (List.cons.injEq .. ▸ hd).1 (by decide)

/-! ### Properties of the normalizer's output list -/

theorem mem_build_iff (ps : List Person) (a : Analysis) (e : Event) :
    e ∈ (buildEventsFromAnalysis ps a).2 ↔ e ∈ preEvents ps a :=
  (List.perm_insertionSort evR (preEvents ps a)).mem_iff

theorem mem_warnEventsAux (ps : List Person) (sd : ℤ) :
    ∀ (ws : List TLWarning) (i : ℕ), ∀ e ∈ warnEventsAux ps sd i ws,
      ∃ j w, i ≤ j ∧ w ∈ ws ∧ e = mkWarnEvent ps sd j w := by
  intro ws
  induction ws with
  | nil => intro i e he; simp [warnEventsAux] at he
  | cons w ws ih =>
    intro i e he
    simp only [warnEventsAux, List.mem_cons] at he
    rcases he with he | he
    · exact ⟨i, w, le_refl i, List.mem_cons_self w ws, he⟩
    · obtain ⟨j, w2, hj, hw2, hf⟩ := ih (i + 1) e he
      exact ⟨j, w2, by omega, List.mem_cons_of_mem w hw2, hf⟩

theorem mem_obsEvents (ps : List Person) (sd : ℤ) (tl : List TLItem) (e : Event) :
    e ∈ obsEvents ps sd tl ↔
      ∃ item, item ∈ tl ∧ ⌊item.t.getD 0⌋ % 10 = 0 ∧
        ∃ pp, pp ∈ item.people ∧ e = mkObsEvent ps sd ⌊item.t.getD 0⌋ pp := by
  unfold obsEvents
  rw [List.mem_flatMap]
  constructor
  · rintro ⟨item, hit, he⟩
    by_cases hdiv : ⌊item.t.getD 0⌋ % 10 = 0
    · rw [if_neg (not_not_intro hdiv)] at he
      obtain ⟨pp, hpp, hf⟩ := List.mem_map.mp he
      exact ⟨item, hit, hdiv, pp, hpp, hf.symm⟩
    · rw [if_pos hdiv] at he
      exact absurd he (List.not_mem_nil e)
  · rintro ⟨item, hit, hdiv, pp, hpp, rfl⟩
    refine ⟨item, hit, ?_⟩
    rw [if_neg (not_not_intro hdiv)]
    exact List.mem_map_of_mem _ hpp

theorem clamp_nonneg (v hi : ℤ) : 0 ≤ clamp v 0 hi := by
  unfold clamp; omega

theorem clamp_le (v hi : ℤ) (h : 0 ≤ hi) : clamp v 0 hi ≤ hi := by
  unfold clamp; omega

/-- Every relation the comparator's `≤ 0` direction implies between an
adjacent pair of the sorted output. -/
theorem evR_adjacent (e1 e2 : Event) (h : evR e1 e2) :
    e1.atSec ≤ e2.atSec ∧
      (e1.atSec = e2.atSec →
        (e2.variant = "warn" → e1.variant = "warn") ∧
        (e1.variant = "warn" → e2.variant = "warn" →
          severityRank e2.severity ≤ severityRank e1.severity)) := by
  rw [evR_iff] at h
  unfold warnBit at h
  by_cases hv1 : e1.variant = "warn" <;> by_cases hv2 : e2.variant = "warn" <;>
    simp [hv1, hv2] at h ⊢ <;> omega

/-- Events with equal comparator keys are mutually tied. -/
theorem evR_of_evKey_eq (a b : Event) (h : evKey a = evKey b) : evR a b := by
  unfold evKey at h
  rw [Prod.mk.injEq, Prod.mk.injEq] at h
  rw [evR_iff]
  exact Or.inr ⟨h.1, Or.inr ⟨h.2.1, le_of_eq (h.2.2.symm)⟩⟩

end RGD

open RGD

/-- C1: for every analysis payload and roster, the event list returned by
`buildEventsFromAnalysis` is ordered so that adjacent `atSec` are
non-decreasing; at equal `atSec` warnings precede observations; among warnings
at equal `atSec` higher severity rank (high = 3, medium = 2, everything else
including missing = 1) sorts first; and all remaining ties keep the insertion
order of the unsorted list, in which warnings were appended before observation
events. -/
theorem C1_ordering_invariant (ps : List Person) (a : Analysis) :
    ((buildEventsFromAnalysis ps a).2).Chain'
        (fun e1 e2 => e1.atSec ≤ e2.atSec ∧
          (e1.atSec = e2.atSec →
            (e2.variant = "warn" → e1.variant = "warn") ∧
            (e1.variant = "warn" → e2.variant = "warn" →
              severityRank e2.severity ≤ severityRank e1.severity))) ∧
      severityRank (some "high") = 3 ∧ severityRank (some "medium") = 2 ∧
      severityRank (some "low") = 1 ∧ severityRank none = 1 ∧
      (∀ k : ℤ × ℤ × ℤ,
        ((buildEventsFromAnalysis ps a).2).filter (fun e => evKey e == k) =
          (warnEvents ps (safeDuration a) a.warnings ++
            obsEvents ps (safeDuration a) a.timeline).filter (fun e => evKey e == k)) := by
  refine ⟨?_, by simp [severityRank], by simp [severityRank], by simp [severityRank],
    by simp [severityRank], ?_⟩
  · have hp : ((buildEventsFromAnalysis ps a).2).Pairwise evR :=
      List.sorted_insertionSort evR (preEvents ps a)
    exact (hp.imp (fun h => evR_adjacent _ _ h)).chain'
  · intro k
    exact filter_insertionSort_eq evR (fun e => evKey e == k)
      (fun x y hx hy =>
        evR_of_evKey_eq x y ((beq_iff_eq.mp hx).trans (beq_iff_eq.mp hy).symm))
      (preEvents ps a)

/-- C2 (amended): every event produced by `buildEventsFromAnalysis` has
`atSec` within `[0, max 1 duration]`, where `duration` is the resolved safe
duration returned with the list.  The upper clamp bound in the code is
`Math.max(1, safeDuration)`, so when the resolved duration is 0 an event may
sit at `atSec = 1`, one second past the duration (see the counterexample). -/
theorem C2_clamp_invariant (ps : List Person) (a : Analysis) :
    ∀ e ∈ (buildEventsFromAnalysis ps a).2,
      0 ≤ e.atSec ∧ e.atSec ≤ max 1 (buildEventsFromAnalysis ps a).1 := by
  intro e he
  rw [mem_build_iff] at he
  rcases List.mem_append.mp he with hw | ho
  · obtain ⟨j, w, -, -, rfl⟩ := mem_warnEventsAux ps (safeDuration a) a.warnings 0 e hw
    exact ⟨clamp_nonneg _ _, clamp_le _ _ (by omega)⟩
  · rw [mem_obsEvents] at ho
    obtain ⟨item, -, -, pp, -, rfl⟩ := ho
    exact ⟨clamp_nonneg _ _, clamp_le _ _ (by omega)⟩

/-- Witness for C2's amended theorem at Scenario A's payload. -/
theorem C2_clamp_invariant_witness :
    0 ≤ (mkWarnEvent [] (safeDuration scenJane) 0 warnJane45).atSec ∧
      (mkWarnEvent [] (safeDuration scenJane) 0 warnJane45).atSec ≤
        max 1 (buildEventsFromAnalysis [] scenJane).1 :=
  C2_clamp_invariant [] scenJane _ (by
    rw [mem_build_iff]
    simp [preEvents, warnEvents, warnEventsAux, scenJane])

/-- Counterexample to C2 as stated: with explicit `duration_sec = 0` and one
warning, the resolved duration is 0 but the single event's `atSec` is 1,
outside `[0, 0]`. -/
theorem C2_counterexample :
    (buildEventsFromAnalysis [] cexDurZero).1 = 0 ∧
      ((buildEventsFromAnalysis [] cexDurZero).2.map Event.atSec) = [1] := by
  constructor
  · simp [buildEventsFromAnalysis, safeDuration, duration, durFromJson, durOr0, cexDurZero]
  · simp [buildEventsFromAnalysis, preEvents, warnEvents, warnEventsAux, obsEvents,
      mkWarnEvent, safeDuration, duration, durFromJson, durOr0, cexDurZero, clamp, warnStart5]

namespace RGD

theorem mkWarnEvent_id (ps : List Person) (sd : ℤ) (i : ℕ) (w : TLWarning) :
    (mkWarnEvent ps sd i w).id =
      warnId i (jsOrDefault w.person "Unknown") (clamp ⌊w.start_sec.getD 0⌋ 0 (max 1 sd)) := rfl

theorem mkObsEvent_id (ps : List Person) (sd t : ℤ) (pp : TLPerson) :
    (mkObsEvent ps sd t pp).id = actId t (jsOrDefault pp.name "Unknown") := rfl

theorem obsEvents_map_id (ps : List Person) (sd : ℤ) (tl : List TLItem) :
    (obsEvents ps sd tl).map Event.id =
      (retainedPairs tl).map (fun q => actId q.1 q.2) := by
  induction tl with
  | nil => simp [obsEvents, retainedPairs]
  | cons item tl ih =>
    simp only [obsEvents, retainedPairs, List.flatMap_cons, List.map_append] at ih ⊢
    rw [ih]
    congr 1
    by_cases hdiv : ⌊item.t.getD 0⌋ % 10 = 0
    · rw [if_neg (not_not_intro hdiv), if_neg (not_not_intro hdiv)]
      simp [List.map_map, Function.comp, mkObsEvent_id]
    · rw [if_pos hdiv, if_pos hdiv]
      simp

theorem warnEventsAux_map_id_nodup (ps : List Person) (sd : ℤ) :
    ∀ (ws : List TLWarning) (i : ℕ), ((warnEventsAux ps sd i ws).map Event.id).Nodup := by
  intro ws
  induction ws with
  | nil => intro i; simp [warnEventsAux]
  | cons w ws ih =>
    intro i
    simp only [warnEventsAux, List.map_cons, List.nodup_cons]
    refine ⟨?_, ih (i + 1)⟩
    intro hmem
    obtain ⟨e, he, hid⟩ := List.mem_map.mp hmem
    obtain ⟨j, w2, hj, -, rfl⟩ := mem_warnEventsAux ps sd ws (i + 1) e he
    rw [mkWarnEvent_id, mkWarnEvent_id] at hid
    have := warnId_inj_index _ _ _ _ _ _ hid
    omega

end RGD

/-- C3 (amended): all event ids produced in one build are pairwise distinct
PROVIDED no two listed people of retained observation samples share the same
display name at the same retained floored second.  Warning ids (which embed
the `forEach` index) are always pairwise distinct and never collide with
observation ids; observation ids `act-${t}-${nm}` carry no index, so they
collide exactly when a (time, name) pair repeats (see the counterexample). -/
theorem C3_ids_unique (ps : List Person) (a : Analysis)
    (h : (retainedPairs a.timeline).Nodup) :
    ((buildEventsFromAnalysis ps a).2.map Event.id).Nodup := by
  have hperm : ((buildEventsFromAnalysis ps a).2.map Event.id).Perm
      ((preEvents ps a).map Event.id) :=
    (List.perm_insertionSort evR (preEvents ps a)).map Event.id
  rw [hperm.nodup_iff]
  unfold preEvents
  rw [List.map_append, List.nodup_append]
  refine ⟨warnEventsAux_map_id_nodup ps (safeDuration a) a.warnings 0, ?_, ?_⟩
  · rw [obsEvents_map_id]
    refine h.map ?_
    intro q1 q2 hq
    obtain ⟨h1, h2⟩ := actId_inj q1.1 q2.1 q1.2 q2.2 hq
    exact Prod.ext h1 h2
  · intro x hx hy
    obtain ⟨e1, he1, rfl⟩ := List.mem_map.mp hx
    obtain ⟨j, w, -, -, rfl⟩ :=
      mem_warnEventsAux ps (safeDuration a) a.warnings 0 e1 he1
    rw [obsEvents_map_id] at hy
    obtain ⟨q, -, hq⟩ := List.mem_map.mp hy
    rw [mkWarnEvent_id] at hq
    exact warnId_ne_actId _ _ _ _ _ hq.symm

/-- Witness for C3's amended theorem: distinct (time, name) pairs give
pairwise distinct ids. -/
theorem C3_ids_unique_witness :
    ((buildEventsFromAnalysis [] scenDistinct).2.map Event.id).Nodup :=
  C3_ids_unique [] scenDistinct (by
    simp [retainedPairs, scenDistinct, jsOrDefault, ppWalkA, ppSitB]
    decide)

/-- Counterexample to C3 as stated: two listed people with the same display
name in one retained sample produce two events with the identical id
`act-10-A`. -/
theorem C3_counterexample :
    ¬ (((buildEventsFromAnalysis [] cexDupNames).2.map Event.id).Nodup) := by
  have h : (buildEventsFromAnalysis [] cexDupNames).2 =
      [mkObsEvent [] 60 10 ppWalkA, mkObsEvent [] 60 10 ppWalkA] := by
    simp [buildEventsFromAnalysis, preEvents, warnEvents, warnEventsAux, obsEvents,
      safeDuration, duration, durFromJson, durOr0, cexDupNames, evR, evCmp]
  rw [h]
  simp

/-- C4 (amended): the normalizer never raises for partially malformed input —
a missing person name defaults to "Unknown", a missing action to "unknown", a
missing `start_sec` to 0 — but no `MalformedPayload` condition exists: a
non-null, non-object top-level payload is not rejected and yields duration 0
with an empty event list; only a `null`/`undefined` top level throws a
`TypeError`, which the caller's catch absorbs into an empty timeline. -/
theorem C4_defaults_and_toplevel :
    (∀ (ps : List Person) (sd : ℤ) (i : ℕ) (w : TLWarning), w.person = none →
      mkWarnEvent ps sd i w = mkWarnEvent ps sd i { w with person := some "Unknown" }) ∧
    (∀ (ps : List Person) (sd : ℤ) (i : ℕ) (w : TLWarning), w.start_sec = none →
      mkWarnEvent ps sd i w = mkWarnEvent ps sd i { w with start_sec := some 0 }) ∧
    (∀ (ps : List Person) (sd t : ℤ) (pp : TLPerson), pp.name = none →
      mkObsEvent ps sd t pp = mkObsEvent ps sd t { pp with name := some "Unknown" }) ∧
    (∀ (ps : List Person) (sd t : ℤ) (pp : TLPerson), pp.action = none →
      mkObsEvent ps sd t pp = mkObsEvent ps sd t { pp with action := some "unknown" }) ∧
    (∀ (ps : List Person) (p : JsPayload), p ≠ JsPayload.jnull → (∀ a, p ≠ JsPayload.jobj a) →
      buildEventsFromAnalysisJs ps p = Except.ok (0, [])) ∧
    (∀ ps : List Person, buildEventsFromAnalysisJs ps JsPayload.jnull =
      Except.error "TypeError") ∧
    (∀ (ps : List Person) (a : Analysis), buildEventsFromAnalysisJs ps (JsPayload.jobj a) =
      Except.ok (buildEventsFromAnalysis ps a)) := by
  refine ⟨?_, ?_, ?_, ?_, ?_, fun ps => rfl, fun ps a => rfl⟩
  · intro ps sd i w h; simp [mkWarnEvent, jsOrDefault, h]
  · intro ps sd i w h; simp [mkWarnEvent, h]
  · intro ps sd t pp h; simp [mkObsEvent, jsOrDefault, h]
  · intro ps sd t pp h; simp [mkObsEvent, jsOrDefault, h]
  · intro ps p h1 h2
    cases p with
    | jnull => exact absurd rfl h1
    | jobj a => exact absurd rfl (h2 a)
    | jbool b => rfl
    | jnum q => rfl
    | jstr s => rfl
    | jarr => rfl

/-- Witness for C4's amended theorem: the fully-bare warning and person entry
take all three defaults, and a string top-level payload maps to an empty
timeline. -/
theorem C4_defaults_witness :
    mkWarnEvent [] 0 0 warnBare = mkWarnEvent [] 0 0 { warnBare with person := some "Unknown" } ∧
    mkWarnEvent [] 0 0 warnBare = mkWarnEvent [] 0 0 { warnBare with start_sec := some 0 } ∧
    mkObsEvent [] 0 0 ppBare = mkObsEvent [] 0 0 { ppBare with name := some "Unknown" } ∧
    mkObsEvent [] 0 0 ppBare = mkObsEvent [] 0 0 { ppBare with action := some "unknown" } ∧
    buildEventsFromAnalysisJs [] (JsPayload.jstr "oops") = Except.ok (0, []) :=
  ⟨C4_defaults_and_toplevel.1 [] 0 0 warnBare rfl,
   C4_defaults_and_toplevel.2.1 [] 0 0 warnBare rfl,
   C4_defaults_and_toplevel.2.2.1 [] 0 0 ppBare rfl,
   C4_defaults_and_toplevel.2.2.2.1 [] 0 0 ppBare rfl,
   C4_defaults_and_toplevel.2.2.2.2.1 [] (JsPayload.jstr "oops") (by simp) (by simp)⟩

/-- Counterexample to C4 as stated: the non-list/non-object top-level payload
`5` is not rejected — the build succeeds with an empty list — and the only
failing top level (`null`) raises a plain `TypeError`, not a `MalformedPayload`
condition. -/
theorem C4_counterexample :
    buildEventsFromAnalysisJs [] (JsPayload.jnum 5) = Except.ok (0, []) ∧
      buildEventsFromAnalysisJs [] JsPayload.jnull = Except.error "TypeError" :=
  ⟨rfl, rfl⟩

/-- C5: observation samples are materialized only when the floored time is an
exact multiple of the fixed step 10; every event of a retained sample carries,
per listed person, the label `name: action`, the copied-through confidence and
the clamped time; and on Scenario C's payload the `t = 15` sample yields
nothing while the `t = 20` sample yields its one event. -/
theorem C5_downsampling (ps : List Person) (a : Analysis) :
    (∀ e ∈ (buildEventsFromAnalysis ps a).2, e.variant = "info" →
      ∃ item, item ∈ a.timeline ∧ ⌊item.t.getD 0⌋ % 10 = 0 ∧
        ∃ pp, pp ∈ item.people ∧
          e.label = jsOrDefault pp.name "Unknown" ++ ": " ++ jsOrDefault pp.action "unknown" ∧
          e.confidence = pp.confidence ∧
          e.atSec = clamp ⌊item.t.getD 0⌋ 0 (max 1 (safeDuration a))) ∧
    (∀ item, item ∈ a.timeline → ⌊item.t.getD 0⌋ % 10 = 0 →
      ∀ pp ∈ item.people,
        mkObsEvent ps (safeDuration a) ⌊item.t.getD 0⌋ pp ∈ (buildEventsFromAnalysis ps a).2) ∧
    ((buildEventsFromAnalysis [] scenC5).2 = [mkObsEvent [] (safeDuration scenC5) 20 ppSitB]) := by
  refine ⟨?_, ?_, ?_⟩
  · intro e he hv
    rw [mem_build_iff] at he
    rcases List.mem_append.mp he with hw | ho
    · obtain ⟨j, w, -, -, rfl⟩ := mem_warnEventsAux ps (safeDuration a) a.warnings 0 e hw
      exact absurd hv (by simp [mkWarnEvent])
    · rw [mem_obsEvents] at ho
      obtain ⟨item, hit, hdiv, pp, hpp, rfl⟩ := ho
      exact ⟨item, hit, hdiv, pp, hpp, rfl, rfl, rfl⟩
  · intro item hit hdiv pp hpp
    rw [mem_build_iff]
    refine List.mem_append_right _ ?_
    rw [mem_obsEvents]
    exact ⟨item, hit, hdiv, pp, hpp, rfl⟩
  · simp [buildEventsFromAnalysis, preEvents, warnEvents, warnEventsAux, obsEvents,
      scenC5, evR, evCmp]

/-- Witness for C5 at Scenario C: the event of the retained `t = 20` sample is
in the output. -/
theorem C5_downsampling_witness :
    mkObsEvent [] (safeDuration scenC5)
        ⌊(({ t := some 20, people := [ppSitB] } : TLItem).t.getD 0)⌋ ppSitB ∈
      (buildEventsFromAnalysis [] scenC5).2 :=
  (C5_downsampling [] scenC5).2.1 { t := some 20, people := [ppSitB] }
    (by simp [scenC5]) (by simp) ppSitB (by simp)

/-- C6: the layout height is `max(minHeightPx, round(safeDuration / 60 *
pxPerMinute))` with `safeDuration = max(1, floor(durationSec))`; and for a
payload with empty warnings, empty timeline and no explicit duration the
resolved duration is 0, the canonical list is empty, and (whenever the
one-second height `round(pxPerMinute / 60)` does not exceed the floor
`minHeightPx`) the layout height equals `minHeightPx`. -/
theorem C6_height_formula_and_empty (minH pxm : ℚ) (ps : List Person) (a : Analysis)
    (hw : a.warnings = []) (ht : a.timeline = []) (hd : durFromJson a = none)
    (hcfg : ((round ((1 : ℚ) / 60 * pxm) : ℤ) : ℚ) ≤ minH) :
    (∀ d : ℚ, VT.heightPx d minH pxm =
      max minH ((round (((max 1 ⌊d⌋ : ℤ) : ℚ) / 60 * pxm) : ℤ) : ℚ)) ∧
    (buildEventsFromAnalysis ps a).1 = 0 ∧
    (buildEventsFromAnalysis ps a).2 = [] ∧
    VT.heightPx (((buildEventsFromAnalysis ps a).1 : ℤ) : ℚ) minH pxm = minH := by
  have h1 : (buildEventsFromAnalysis ps a).1 = 0 := by
    show safeDuration a = 0
    unfold safeDuration duration
    rw [hd, ht]
    simp [durFromTimeline, durOr0]
  refine ⟨fun d => rfl, h1, ?_, ?_⟩
  · simp [buildEventsFromAnalysis, preEvents, warnEvents, warnEventsAux, obsEvents, hw, ht]
  · rw [h1]
    unfold VT.heightPx VT.safeDuration
    rw [show ((max 1 ⌊((0 : ℤ) : ℚ)⌋ : ℤ) : ℚ) = 1 by simp]
    exact max_eq_left hcfg

/-- Witness for C6 at Scenario B with the drawer-like configuration
`minHeightPx = 560`, `pxPerMinute = 60`. -/
theorem C6_height_witness :
    (∀ d : ℚ, VT.heightPx d 560 60 =
      max 560 ((round (((max 1 ⌊d⌋ : ℤ) : ℚ) / 60 * 60) : ℤ) : ℚ)) ∧
    (buildEventsFromAnalysis [] scenEmpty).1 = 0 ∧
    (buildEventsFromAnalysis [] scenEmpty).2 = [] ∧
    VT.heightPx (((buildEventsFromAnalysis [] scenEmpty).1 : ℤ) : ℚ) 560 60 = 560 :=
  C6_height_formula_and_empty 560 60 [] scenEmpty rfl rfl rfl (by simp)

/-- The projection always lands inside the padded band, for arbitrary
(possibly degenerate) inputs. -/
theorem secToY_range (sec dur pt pb h : ℚ) :
    pt ≤ VT.secToY sec dur pt pb h ∧ VT.secToY sec dur pt pb h ≤ pt + max 1 (h - pt - pb) := by
  have hdpos : (0 : ℚ) < max 1 dur := lt_of_lt_of_le zero_lt_one (le_max_left 1 dur)
  have hu0 : (0 : ℚ) ≤ max 1 (h - pt - pb) := le_trans zero_le_one (le_max_left _ _)
  have hc0 : 0 ≤ VT.clamp sec 0 dur := le_max_left 0 _
  have hcd : VT.clamp sec 0 dur ≤ max 1 dur := by
    unfold VT.clamp
    exact max_le (le_trans zero_le_one (le_max_left _ _))
      (le_trans (min_le_left _ _) (le_max_right _ _))
  have hr0 : 0 ≤ VT.clamp sec 0 dur / max 1 dur := div_nonneg hc0 hdpos.le
  have hr1 : VT.clamp sec 0 dur / max 1 dur ≤ 1 := (div_le_one hdpos).mpr hcd
  constructor
  · simp only [VT.secToY]
    have hm : 0 ≤ (VT.clamp sec 0 dur / max 1 dur) * max 1 (h - pt - pb) :=
      mul_nonneg hr0 hu0
    linarith
  · simp only [VT.secToY]
    have hm : (VT.clamp sec 0 dur / max 1 dur) * max 1 (h - pt - pb) ≤
        1 * max 1 (h - pt - pb) := mul_le_mul_of_nonneg_right hr1 hu0
    linarith

/-- C7: the projection is monotone on `[0, duration]`; under a non-degenerate
configuration (`heightPx - padTop - padBottom ≥ 1`, `safeDuration ≥ 1`) it is
exactly the spec's linear formula; and labels, minor ticks and events are all
placed through the same `secToY`, so a label or tick and an event at the same
time always share a pixel offset. -/
theorem C7_projection_monotone_aligned :
    (∀ t1 t2 dur pt pb h : ℚ, 0 ≤ t1 → t1 < t2 → t2 ≤ dur →
      VT.secToY t1 dur pt pb h ≤ VT.secToY t2 dur pt pb h) ∧
    (∀ sec dur pt pb h : ℚ, 1 ≤ dur → 1 ≤ h - pt - pb →
      VT.secToY sec dur pt pb h = VT.specPixelOffset sec dur pt pb h) ∧
    (∀ (les : ℚ) (safeD : ℤ) (events : List VT.TimelineEvent) (pt pb h : ℚ)
        (p : ℤ × ℚ) (q : VT.TimelineEvent × ℚ),
      p ∈ VT.labelPositions les safeD pt pb h →
      q ∈ VT.eventPositions events safeD pt pb h →
      (p.1 : ℚ) = q.1.atSec → p.2 = q.2) ∧
    (∀ (mes : Option ℚ) (les : ℚ) (safeD : ℤ) (events : List VT.TimelineEvent)
        (pt pb h : ℚ) (p : ℤ × ℚ) (q : VT.TimelineEvent × ℚ),
      p ∈ VT.minorTickPositions mes les safeD pt pb h →
      q ∈ VT.eventPositions events safeD pt pb h →
      (p.1 : ℚ) = q.1.atSec → p.2 = q.2) := by
  refine ⟨?_, ?_, ?_, ?_⟩
  · intro t1 t2 dur pt pb h h0 h12 h2d
    simp only [VT.secToY]
    have hc : VT.clamp t1 0 dur ≤ VT.clamp t2 0 dur := by
      unfold VT.clamp
      exact max_le_max (le_refl 0) (min_le_min (le_refl dur) h12.le)
    have hdpos : (0 : ℚ) < max 1 dur := lt_of_lt_of_le zero_lt_one (le_max_left 1 dur)
    have hu : (0 : ℚ) ≤ max 1 (h - pt - pb) := le_trans zero_le_one (le_max_left _ _)
    have hr : VT.clamp t1 0 dur / max 1 dur ≤ VT.clamp t2 0 dur / max 1 dur :=
      div_le_div_of_nonneg_right hc hdpos.le
    exact add_le_add_left (mul_le_mul_of_nonneg_right hr hu) pt
  · intro sec dur pt pb h h1d hup
    simp only [VT.secToY, VT.specPixelOffset]
    rw [max_eq_right h1d, max_eq_right hup]
  · intro les safeD events pt pb h p q hp hq heq
    obtain ⟨t, -, rfl⟩ := List.mem_map.mp hp
    obtain ⟨e, -, rfl⟩ := List.mem_map.mp hq
    simp only at heq ⊢
    rw [heq]
  · intro mes les safeD events pt pb h p q hp hq heq
    obtain ⟨t, -, rfl⟩ := List.mem_map.mp hp
    obtain ⟨e, -, rfl⟩ := List.mem_map.mp hq
    simp only at heq ⊢
    rw [heq]

/-- Witness for C7: monotonicity at 30 s vs 60 s on a 120 s timeline with the
drawer's paddings. -/
theorem C7_projection_witness :
    VT.secToY ((30 : ℤ) : ℚ) ((120 : ℤ) : ℚ) 56 28 560 ≤
      VT.secToY ((60 : ℤ) : ℚ) ((120 : ℤ) : ℚ) 56 28 560 :=
  C7_projection_monotone_aligned.1 _ _ _ _ _ _
    (Int.cast_nonneg.mpr (by decide))
    (Int.cast_lt.mpr (by decide))
    (Int.cast_le.mpr (by decide))

/-- C8 (amended): identity resolution trims BOTH sides — it returns the id of
the last roster entry whose trimmed display name equals the trimmed input (the
`Map` is built with `set(trim(p.name), p.id)`, later entries overwriting
earlier ones); if no trimmed name matches, the sentinel `__unknown__`; an
empty roster always resolves to `__unknown__`; no partial, fuzzy or
case-insensitive matching takes place; "jane " resolves against roster name
"jane". -/
theorem C8_identity_resolution (roster : List Person) (name : String) :
    (toPersonId [] name = "__unknown__") ∧
    ((∀ p ∈ roster, jsTrim p.name ≠ jsTrim name) → toPersonId roster name = "__unknown__") ∧
    (∀ l1 p l2, roster = l1 ++ p :: l2 → jsTrim p.name = jsTrim name →
      (∀ q ∈ l2, jsTrim q.name ≠ jsTrim name) → toPersonId roster name = p.id) ∧
    (toPersonId rosterJane "jane " = "7") := by
  refine ⟨rfl, ?_, ?_, by decide⟩
  · intro hall
    unfold toPersonId
    rw [List.find?_eq_none.mpr (fun p hp => by
      simp only [beq_iff_eq]
      exact hall p (List.mem_reverse.mp hp))]
  · intro l1 p l2 hr hp hl2
    subst hr
    unfold toPersonId
    rw [List.reverse_append, List.reverse_cons, List.append_assoc, List.find?_append,
      List.find?_eq_none.mpr (fun q hq => by
        simp only [beq_iff_eq]
        exact hl2 q (List.mem_reverse.mp hq))]
    simp [hp]

/-- Witness for C8 at Scenario D: "jane " (trailing space) resolves to the
roster entry whose name is exactly "jane". -/
theorem C8_identity_resolution_witness :
    toPersonId rosterJane "jane " = (Person.mk "7" "jane").id :=
  (C8_identity_resolution rosterJane "jane ").2.2.1 [] (Person.mk "7" "jane") []
    rfl (by decide) (by simp)

/-- Counterexample to C8 as stated: the roster name "jane " does not equal the
trimmed input "jane" exactly, yet resolution returns its id rather than the
unknown sentinel, because the code also trims the roster side. -/
theorem C8_counterexample :
    toPersonId rosterTrailing "jane" = "1" ∧
      (∀ p ∈ rosterTrailing, p.name ≠ "jane") ∧ ("1" : String) ≠ "__unknown__" :=
  ⟨by decide, by decide, by decide⟩

/-- C9 (amended): with a `null` selection — and likewise with the empty-string
selection, which is also falsy in JS — the filter returns the full input list;
for any non-empty identity `p` it returns exactly the subsequence of events
whose identity equals `p`, in the original relative order (the model is pure,
so the input list is never mutated). -/
theorem C9_selection_filter (events : List Event) (p : String) (hp : p ≠ "") :
    (filteredEvents events none = events) ∧
    (filteredEvents events (some "") = events) ∧
    List.Sublist (filteredEvents events (some p)) events ∧
    (∀ e ∈ filteredEvents events (some p), e.personId = p) ∧
    (∀ e ∈ events, e.personId = p → e ∈ filteredEvents events (some p)) := by
  refine ⟨rfl, rfl, ?_, ?_, ?_⟩
  · simp only [filteredEvents, if_neg hp]
    exact List.filter_sublist events
  · intro e he
    simp only [filteredEvents, if_neg hp] at he
    simpa using (List.mem_filter.mp he).2
  · intro e he hid
    simp only [filteredEvents, if_neg hp]
    exact List.mem_filter.mpr ⟨he, by simpa using hid⟩

/-- Witness for C9 on a two-event list and the identity "x". -/
theorem C9_selection_filter_witness :
    (filteredEvents [evX, evY] none = [evX, evY]) ∧
    (filteredEvents [evX, evY] (some "") = [evX, evY]) ∧
    List.Sublist (filteredEvents [evX, evY] (some "x")) [evX, evY] ∧
    (∀ e ∈ filteredEvents [evX, evY] (some "x"), e.personId = "x") ∧
    (∀ e ∈ [evX, evY], e.personId = "x" → e ∈ filteredEvents [evX, evY] (some "x")) :=
  C9_selection_filter [evX, evY] "x" (by decide)

/-- Counterexample to C9 as stated: for the identity `p = ""` the filter does
not return the subsequence with identity `""` (which would be empty) — the
empty string is falsy, so the whole list comes back. -/
theorem C9_counterexample :
    filteredEvents [evX] (some "") = [evX] ∧ evX.personId ≠ "" :=
  ⟨rfl, by decide⟩

/-- C10: the layout engine re-normalizes independently of the normalizer —
every event's `atSec` is floored and clamped into `[0, safeDuration]` (an
integer value), the list is stably re-sorted by `atSec`, and for arbitrary
input and degenerate padding or duration every event's pixel offset lies in
`[padTop, padTop + max 1 (heightPx - padTop - padBottom)]`. -/
theorem C10_layout_renormalizes (events : List VT.TimelineEvent)
    (durationSec pt pb h : ℚ) :
    (∀ e ∈ VT.normalizedEvents events (VT.safeDuration durationSec),
      0 ≤ e.atSec ∧ e.atSec ≤ ((VT.safeDuration durationSec : ℤ) : ℚ) ∧
        e.atSec = ((⌊e.atSec⌋ : ℤ) : ℚ)) ∧
    (VT.normalizedEvents events (VT.safeDuration durationSec)).Chain' VT.vtLe ∧
    (∀ s : ℚ, (VT.normalizedEvents events (VT.safeDuration durationSec)).filter
        (fun e => e.atSec == s) =
      (events.map (fun e =>
        { e with atSec :=
            ((RGD.clamp ⌊e.atSec⌋ 0 (VT.safeDuration durationSec) : ℤ) : ℚ) })).filter
        (fun e => e.atSec == s)) ∧
    (∀ q ∈ VT.eventPositions events (VT.safeDuration durationSec) pt pb h,
      pt ≤ q.2 ∧ q.2 ≤ pt + max 1 (h - pt - pb)) := by
  refine ⟨?_, ?_, ?_, ?_⟩
  · intro e he
    unfold VT.normalizedEvents at he
    rw [(List.perm_insertionSort VT.vtLe _).mem_iff] at he
    obtain ⟨e0, -, rfl⟩ := List.mem_map.mp he
    have hsd : (0 : ℤ) ≤ VT.safeDuration durationSec := by
      unfold VT.safeDuration; omega
    refine ⟨Int.cast_nonneg.mpr (clamp_nonneg _ _), ?_, by simp⟩
    exact Int.cast_le.mpr (clamp_le _ _ hsd)
  · exact (List.sorted_insertionSort VT.vtLe _).chain'
  · intro s
    exact filter_insertionSort_eq VT.vtLe (fun e => e.atSec == s)
      (fun x y hx hy => by
        unfold VT.vtLe
        rw [beq_iff_eq.mp hx, beq_iff_eq.mp hy]) _
  · intro q hq
    obtain ⟨e, -, rfl⟩ := List.mem_map.mp hq
    exact secToY_range e.atSec _ pt pb h

/-- Witness for C10: the out-of-range event at 200 s on a 100 s timeline is
clamped into the domain. -/
theorem C10_layout_witness :
    0 ≤ ({ vtFar with atSec :=
        ((RGD.clamp ⌊vtFar.atSec⌋ 0 (VT.safeDuration ((100 : ℤ) : ℚ)) : ℤ) : ℚ) } :
          VT.TimelineEvent).atSec ∧
    ({ vtFar with atSec :=
        ((RGD.clamp ⌊vtFar.atSec⌋ 0 (VT.safeDuration ((100 : ℤ) : ℚ)) : ℤ) : ℚ) } :
          VT.TimelineEvent).atSec ≤ ((VT.safeDuration ((100 : ℤ) : ℚ) : ℤ) : ℚ) ∧
    ({ vtFar with atSec :=
        ((RGD.clamp ⌊vtFar.atSec⌋ 0 (VT.safeDuration ((100 : ℤ) : ℚ)) : ℤ) : ℚ) } :
          VT.TimelineEvent).atSec =
      ((⌊({ vtFar with atSec :=
          ((RGD.clamp ⌊vtFar.atSec⌋ 0 (VT.safeDuration ((100 : ℤ) : ℚ)) : ℤ) : ℚ) } :
            VT.TimelineEvent).atSec⌋ : ℤ) : ℚ) :=
  (C10_layout_renormalizes [vtFar] ((100 : ℤ) : ℚ) 0 0 0).1 _
    (by simp [VT.normalizedEvents])

end ElderAI
